import Mathlib

/-!
kubectl-fzf: change detection, completion post-processing and the supervisor loop.

A shallow embedding of three pieces of the repository:

* `pkg/k8sresources/statefulset.go`: the `StatefulSet` record, `FromRuntime` and `HasChanged`;
* `pkg/results/results.go`: `parseNamespaceFlag` and `processResultWithNamespace`;
* `cmd/cache_builder/main.go`: the polling loop of `start` around `startWatchOnCluster`.

Go values are embedded as follows: `string` is `String`, `[]string` is `List String`
(a nil slice and an empty slice are both `[]`), `map[string]string` is the list of its
entries, `int`/`int32` are `Int` (the conversion `int(int32)` keeps the value), a pointer
that may be nil is an `Option`, and a run-time panic is the `none`/`panic` outcome of the
embedded function.
-/

namespace K8sresources

/-- A Go `map[string]string`, as the list of its entries (a nil map is `[]`). -/
abbrev StringMap := List (String × String)

/-- Modelled from the spec: `util.StringSlicesEqual` is not under src/. It is the
element-wise equality its name and its use in the "selector sets" comparison describe:
same length and the same string at every index. -/
def StringSlicesEqual : List String → List String → Bool
  | [], [] => true
  | a :: as, b :: bs => a == b && StringSlicesEqual as bs
  | _, _ => false

/-- Modelled from the spec: `util.StringMapsEqual` is not under src/. Two maps are equal
when they have the same number of entries and every entry of the first is bound to the
same value in the second ("nil-vs-empty-set treated as equal"). -/
def StringMapsEqual (a b : StringMap) : Bool :=
  a.length == b.length && a.all (fun kv => b.lookup kv.1 == some kv.2)

/-- Modelled from the spec: `util.JoinStringMap` is not under src/. It yields the
"selector expression list derived from its label selector": one `key<sep>value` string per
entry of `m` whose key is not a key of `exclude`, in the order of the entries. -/
def JoinStringMap (m exclude : StringMap) (sep : String) : List String :=
  (m.filter (fun kv => (exclude.lookup kv.1).isNone)).map (fun kv => kv.1 ++ sep ++ kv.2)

/-- The part of `metav1.ObjectMeta` the records read. -/
structure ObjectMeta where
  Name : String
  Namespace : String
  Labels : StringMap
  CreationTimestamp : Int
  deriving DecidableEq, Repr

/-- The `metav1.LabelSelector` of a workload (only `MatchLabels` is read). -/
structure LabelSelector where
  MatchLabels : StringMap
  deriving DecidableEq, Repr

/-- The fields of `appsv1.StatefulSetSpec` relevant here: `Replicas` is the `*int32`
desired number of replicas, `Selector` is the `*metav1.LabelSelector`. -/
structure StatefulSetSpec where
  Replicas : Option Int
  Selector : Option LabelSelector
  deriving DecidableEq, Repr

/-- The fields of `appsv1.StatefulSetStatus` relevant here: `Replicas` is the number of
pods created by the controller, `CurrentReplicas` the number of those at the current
revision. -/
structure StatefulSetStatus where
  Replicas : Int
  CurrentReplicas : Int
  deriving DecidableEq, Repr

/-- The object `appsv1.StatefulSet` handed over by the informer. -/
structure AppsV1StatefulSet where
  ObjectMeta : ObjectMeta
  Spec : StatefulSetSpec
  Status : StatefulSetStatus
  deriving DecidableEq, Repr

/-- The construction context `CtorConfig` (built in `startWatchOnCluster`); the role
blacklist set is kept as the list of its members. -/
structure CtorConfig where
  RoleBlacklist : List String
  Cluster : String
  deriving DecidableEq, Repr

/-- Modelled from the spec: the type `ResourceMeta` is not under src/. It holds the
common fields of a record: "cluster name, namespace, name, label set, creation age". -/
structure ResourceMeta where
  Cluster : String
  Namespace : String
  Name : String
  Labels : StringMap
  CreationTime : Int
  deriving DecidableEq, Repr

/-- Modelled from the spec: the method `ResourceMeta.FromObjectMeta` is not under src/.
It fills the common fields from the object's metadata and the construction context. -/
def FromObjectMeta (meta : ObjectMeta) (config : CtorConfig) : ResourceMeta :=
  { Cluster := config.Cluster
    Namespace := meta.Namespace
    Name := meta.Name
    Labels := meta.Labels
    CreationTime := meta.CreationTimestamp }

/-- The record `StatefulSet`: the embedded `ResourceMeta` and the three kind-specific
fields. -/
structure StatefulSet where
  toResourceMeta : ResourceMeta
  currentReplicas : Int
  replicas : Int
  selectors : List String
  deriving DecidableEq, Repr

/-- The promoted field `Labels` of the embedded `ResourceMeta`. -/
def StatefulSet.Labels (s : StatefulSet) : StringMap := s.toResourceMeta.Labels

/-- `(*StatefulSet).FromRuntime`. The package variable `ExcludedLabels` is not under src/
and is a parameter. The result is `none` when the method panics: dereferencing
`statefulset.Spec.Selector` when that pointer is nil. -/
def StatefulSet.FromRuntime (ExcludedLabels : StringMap) (statefulset : AppsV1StatefulSet)
    (config : CtorConfig) : Option StatefulSet :=
  let meta := FromObjectMeta statefulset.ObjectMeta config
  let currentReplicas := statefulset.Status.CurrentReplicas
  let replicas := statefulset.Status.Replicas
  match statefulset.Spec.Selector with
  | none => none
  | some selector =>
    some { toResourceMeta := meta
           currentReplicas := currentReplicas
           replicas := replicas
           selectors := JoinStringMap selector.MatchLabels ExcludedLabels "=" }

/-- `NewStatefulSetFromRuntime`: a fresh record filled by `FromRuntime`. -/
def NewStatefulSetFromRuntime (ExcludedLabels : StringMap) (obj : AppsV1StatefulSet)
    (config : CtorConfig) : Option StatefulSet :=
  StatefulSet.FromRuntime ExcludedLabels obj config

/-- `(*StatefulSet).HasChanged`, as written in the source: the two replica comparisons
are `!=`, the selector and label comparisons are the (un-negated) results of
`util.StringSlicesEqual` and `util.StringMapsEqual`. -/
def StatefulSet.HasChanged (s oldSts : StatefulSet) : Bool :=
  (s.currentReplicas != oldSts.currentReplicas ||
    s.replicas != oldSts.replicas ||
    StringSlicesEqual s.selectors oldSts.selectors ||
    StringMapsEqual s.Labels oldSts.Labels)

/-- The object of the scenario: statefulset `web` in namespace `default`, three replicas
requested in the spec, `created` pods created of which `current` are at the current
revision, label and selector `app=<app>`. -/
def scenarioObject (app : String) (created current : Int) : AppsV1StatefulSet :=
  { ObjectMeta := { Name := "web", Namespace := "default", Labels := [("app", app)],
                    CreationTimestamp := 0 }
    Spec := { Replicas := some 3, Selector := some { MatchLabels := [("app", app)] } }
    Status := { Replicas := created, CurrentReplicas := current } }

/-- The scenario object `{name: web, namespace: default, replicas: 3, currentReplicas:
current, selector: {app: web}}`. -/
def webObject (current : Int) : AppsV1StatefulSet := scenarioObject "web" 3 current

/-- A construction context for the scenario. -/
def minikube : CtorConfig := { RoleBlacklist := [], Cluster := "minikube" }

/-- The record expected for `scenarioObject app created current`. -/
def scenarioRecord (app : String) (created current : Int) : StatefulSet :=
  { toResourceMeta := { Cluster := "minikube", Namespace := "default", Name := "web",
                        Labels := [("app", app)], CreationTime := 0 }
    currentReplicas := current
    replicas := created
    selectors := ["app=" ++ app] }

/-- The record of the scenario object `webObject current`. -/
def webRecord (current : Int) : StatefulSet := scenarioRecord "web" 3 current

end K8sresources

namespace Results

/-- Go's `unicode.IsSpace`: the Latin-1 white space characters and the other code points
with the White_Space property. -/
def isSpace (c : Char) : Bool :=
  let r := c.toNat
  r == 9 || r == 10 || r == 11 || r == 12 || r == 13 || r == 32 || r == 133 || r == 160 ||
    r == 5760 || (8192 ≤ r && r ≤ 8202) || r == 8232 || r == 8233 || r == 8239 ||
    r == 8287 || r == 12288

/-- The scan of `strings.Fields`: `cur` is the field being read (reversed), the result is
the list of maximal runs of non-space characters of the remaining input. -/
def fieldsAux : List Char → List Char → List (List Char)
  | cur, [] => if cur = [] then [] else [cur.reverse]
  | cur, c :: cs =>
    if isSpace c then
      if cur = [] then fieldsAux [] cs else cur.reverse :: fieldsAux [] cs
    else fieldsAux (c :: cur) cs

/-- Go's `strings.Fields`: splits around each run of white space characters; the result
is empty when the string holds only white space. The string is read as its sequence of
code points (a Go string that is valid UTF-8). -/
def Fields (s : String) : List String :=
  (fieldsAux [] s.data).map String.mk

/-- The verbs `%v` and `%s` of `fmt` applied to a `[]string`: `[a b c]`. -/
def fmtSlice (xs : List String) : String :=
  "[" ++ " ".intercalate xs ++ "]"

/-- Modelled from the spec: the type `resources.ResourceType` and its constants are not
under src/. The function under study tells apart the api-resource type, the namespace type
and every other resource type. -/
inductive ResourceType where
  | ResourceTypeApiResource
  | ResourceTypeNamespace
  | other (code : Nat)
  deriving DecidableEq, Repr

/-- Modelled from the spec: the type `parse.FlagCompletion` and its constants are not
under src/. The function under study tells apart the completion of a namespace flag from
every other flag completion. -/
inductive FlagCompletion where
  | FlagNamespace
  | other (code : Nat)
  deriving DecidableEq, Repr

/-- A Go `error`: `none` is nil, `some msg` an error with that message. -/
abbrev Error := Option String

/-- The signature of `parse.ParseFlagAndResources`, which is not under src/: the function
under study takes it as a parameter. -/
abbrev ArgParser := String → List String → ResourceType × FlagCompletion × Error

/-- The outcome of `fs.Parse(cmdArgs)` on the flag set of `parseNamespaceFlag` (library
pflag, unknown flags whitelisted, one string flag `--namespace`/`-n` with default `""`):
the value of the namespace flag after parsing, and the parse error. -/
abbrev FlagSetParse := List String → String × Error

/-- `parseNamespaceFlag`: the returned pointer is never nil, the error is that of `Parse`. -/
def parseNamespaceFlag (Parse : FlagSetParse) (cmdArgs : List String) : Option String × Error :=
  let cmdNamespace := (Parse cmdArgs).1
  let err := (Parse cmdArgs).2
  (some cmdNamespace, err)

/-- Modelled from the spec: `util.IsStringIn` is not under src/; it tells whether the
string is an element of the slice. -/
def IsStringIn (s : String) (xs : List String) : Bool :=
  xs.any (fun x => x == s)

/-- The local `lastFlags` of `processResultWithNamespace`. -/
def lastFlags : List String :=
  ["-l=", "-l", "--field-selector=", "--selector=", "-n=", "--namespace=", "-n"]

/-- What a call of `processResultWithNamespace` does: it returns a completion and an
error, or it panics on an index out of range. -/
inductive Outcome where
  | ret (completion : String) (err : Error)
  | panic
  deriving DecidableEq, Repr

/-- `processResultWithNamespace`. Every slice access is an optional lookup whose failure
is the panic of the Go run time; `cmdArgs[len(cmdArgs)-1]` on an empty slice is the index
`-1`, here the failing lookup of index `0 - 1 = 0` in the empty list. -/
def processResultWithNamespace (ParseFlagAndResources : ArgParser) (Parse : FlagSetParse)
    (cmdUse : String) (cmdArgs : List String) (fzfResult : String)
    (currentNamespace : String) : Outcome :=
  let resultFields := Fields fzfResult
  if resultFields.length < 3 then
    Outcome.ret ""
      (some ("fzf result should have at least 3 elements, got " ++ fmtSlice resultFields))
  else
    match ParseFlagAndResources cmdUse cmdArgs with
    | (_, _, some err) => Outcome.ret "" (some err)
    | (resourceType, flagCompletion, none) =>
      if resourceType = ResourceType.ResourceTypeApiResource then
        match resultFields[0]? with
        | none => Outcome.panic
        | some fullname => Outcome.ret fullname none
      else
        match resultFields[1]? with
        | none => Outcome.panic
        | some resultNamespace =>
        match resultFields[2]? with
        | none => Outcome.panic
        | some value =>
        match (if resourceType = ResourceType.ResourceTypeNamespace then resultFields[1]?
               else some value) with
        | none => Outcome.panic
        | some resultValue =>
        match (if flagCompletion ≠ FlagCompletion.FlagNamespace
               then parseNamespaceFlag Parse cmdArgs else (none, none)) with
        | (_, some err) =>
          Outcome.ret "" (some ("Error parsing commands " ++ fmtSlice cmdArgs ++ ": " ++ err))
        | (cmdNamespace, none) =>
        match cmdArgs[cmdArgs.length - 1]? with
        | none => Outcome.panic
        | some lastWord =>
          let resultValue :=
            if IsStringIn lastWord lastFlags then lastWord ++ resultValue else resultValue
          if cmdNamespace = some resultNamespace then
            Outcome.ret resultValue none
          else if resultNamespace ≠ currentNamespace ∧
              flagCompletion ≠ FlagCompletion.FlagNamespace then
            Outcome.ret (resultValue ++ " -n " ++ resultNamespace) none
          else
            Outcome.ret resultValue none

/-- Whether the string `s` ends with the string `t`. -/
def endsWith (s t : String) : Bool :=
  t.data.isSuffixOf s.data

/-- An argument parser that answers the same resource type and flag completion, without
error, for every command line. -/
def constParser (rt : ResourceType) (fc : FlagCompletion) : ArgParser :=
  fun _ _ => (rt, fc, none)

/-- The outcome of the flag set on command lines without any `-n`/`--namespace` flag: the
default value and no error. -/
def noNamespaceFlag : FlagSetParse :=
  fun _ => ("", none)

end Results

namespace CacheBuilder

/-- The part of `restclient.Config` the loop of `start` reads. -/
structure RestConfig where
  Host : String
  deriving DecidableEq, Repr

/-- One answer of `clusterCliConf.GetClientConfigAndCluster()`: the rest config and the
cluster name of the current context. -/
structure Poll where
  restConfig : RestConfig
  cluster : String
  deriving DecidableEq, Repr

/-- The session returned by `startWatchOnCluster`: the `ResourceWatcher` built on `config`
for `cluster`; `id` counts the sessions built before it. -/
structure ResourceWatcher where
  id : Nat
  config : RestConfig
  cluster : String
  deriving DecidableEq, Repr

/-- The session actions of the supervisor: a call of `startWatchOnCluster`, which builds
and starts the session `w`, and a call of `w.Stop()`. -/
inductive Action where
  | Start (w : ResourceWatcher)
  | Stop (w : ResourceWatcher)
  deriving DecidableEq, Repr

/-- What the `select` of the loop receives: a tick of the ticker, with the answer the
poll of that tick gets and whether the watches of a session started on it come up
(`util.FatalIf` ends the process otherwise), or the cancellation of the context. -/
inductive Event where
  | tick (poll : Poll) (startOk : Bool)
  | done
  deriving DecidableEq, Repr

/-- Where the process stands: in the loop, returned from `start` after `ctx.Done()`, or
terminated by `util.FatalIf` inside `startWatchOnCluster`. -/
inductive Status where
  | running
  | returned
  | exited
  deriving DecidableEq, Repr

/-- The local variables of `start` (`currentRestConfig`, `currentCluster`, `watcher`),
the number of sessions built so far and the trace of session actions. -/
structure Supervisor where
  currentRestConfig : RestConfig
  currentCluster : String
  watcher : ResourceWatcher
  sessions : Nat
  trace : List Action
  status : Status
  deriving DecidableEq, Repr

/-- `startWatchOnCluster`: builds the `n`-th session on `config` and `cluster` and starts
its watches; `none` when `util.FatalIf` terminates the process on a start error. -/
def startWatchOnCluster (n : Nat) (config : RestConfig) (cluster : String)
    (startOk : Bool) : Option ResourceWatcher :=
  if startOk then some { id := n, config := config, cluster := cluster } else none

/-- The session a call of `startWatchOnCluster` is building, recorded in the trace before
the outcome of the start is known. -/
def newWatcher (n : Nat) (poll : Poll) : ResourceWatcher :=
  { id := n, config := poll.restConfig, cluster := poll.cluster }

/-- The statements of `start` before the loop: the first poll and the first session. When
the first start terminates the process, `watcher` is never assigned; the field then holds
the session that was being built and the status is `exited`. -/
def init (first : Poll) (startOk : Bool) : Supervisor :=
  let currentRestConfig := first.restConfig
  let currentCluster := first.cluster
  match startWatchOnCluster 0 currentRestConfig currentCluster startOk with
  | some watcher =>
    { currentRestConfig := currentRestConfig, currentCluster := currentCluster,
      watcher := watcher, sessions := 1,
      trace := [Action.Start (newWatcher 0 first)], status := Status.running }
  | none =>
    { currentRestConfig := currentRestConfig, currentCluster := currentCluster,
      watcher := newWatcher 0 first, sessions := 1,
      trace := [Action.Start (newWatcher 0 first)], status := Status.exited }

/-- One iteration of the `for`/`select` loop of `start`. -/
def step (s : Supervisor) (e : Event) : Supervisor :=
  match s.status with
  | Status.returned => s
  | Status.exited => s
  | Status.running =>
    match e with
    | Event.done => { s with status := Status.returned }
    | Event.tick poll startOk =>
      let restConfig := poll.restConfig
      let cluster := poll.cluster
      if restConfig.Host ≠ s.currentRestConfig.Host then
        let stopped := s.trace ++ [Action.Stop s.watcher]
        match startWatchOnCluster s.sessions restConfig cluster startOk with
        | some watcher =>
          { currentRestConfig := restConfig, currentCluster := cluster, watcher := watcher,
            sessions := s.sessions + 1,
            trace := stopped ++ [Action.Start (newWatcher s.sessions poll)],
            status := Status.running }
        | none =>
          { s with sessions := s.sessions + 1,
                   trace := stopped ++ [Action.Start (newWatcher s.sessions poll)],
                   status := Status.exited }
      else s

/-- The function `start` from its first poll on, run over the events the loop receives. -/
def start (first : Poll) (startOk : Bool) (events : List Event) : Supervisor :=
  events.foldl step (init first startOk)

/-- The effect of one action on the list of active sessions (started, not yet stopped). -/
def applyAction (active : List Nat) : Action → List Nat
  | Action.Start w => w.id :: active
  | Action.Stop w => active.filter (fun i => i ≠ w.id)

/-- The sessions active at the end of a trace. -/
def activeSessions (trace : List Action) : List Nat :=
  trace.foldl applyAction []

/-- The session started last in a trace. -/
def lastStarted : List Action → Option ResourceWatcher
  | [] => none
  | Action.Start w :: rest => (lastStarted rest).or (some w)
  | Action.Stop _ :: rest => lastStarted rest

/-- A poll answering the given host and cluster name. -/
def pollOf (host cluster : String) : Poll :=
  { restConfig := { Host := host }, cluster := cluster }

end CacheBuilder

/-! ## Change detection of the StatefulSet record -/

namespace K8sresources

theorem StringSlicesEqual_iff (a b : List String) :
    StringSlicesEqual a b = true ↔ a = b := by
  induction a generalizing b with
  | nil => cases b <;> simp [StringSlicesEqual]
  | cons x xs ih => cases b <;> simp [StringSlicesEqual, ih]

theorem scenarioRecord_built (app : String) (created current : Int) :
    NewStatefulSetFromRuntime [] (scenarioObject app created current) minikube
      = some (scenarioRecord app created current) := by
  simp [NewStatefulSetFromRuntime, StatefulSet.FromRuntime, scenarioObject, scenarioRecord,
    FromObjectMeta, minikube, JoinStringMap]

/-- C1 (code evaluated): `HasChanged` of a record against itself returns true, for every
record, because the un-negated `StringSlicesEqual` of the selector list with itself is
true; so it does for the record built by `NewStatefulSetFromRuntime` from the scenario
object. -/
theorem HasChanged_self_true :
    (∀ r : StatefulSet, r.HasChanged r = true) ∧
    NewStatefulSetFromRuntime [] (webObject 3) minikube = some (webRecord 3) ∧
    (webRecord 3).HasChanged (webRecord 3) = true := by
  have h : ∀ r : StatefulSet, r.HasChanged r = true := by
    intro r
    simp [StatefulSet.HasChanged, (StringSlicesEqual_iff r.selectors r.selectors).mpr rfl]
  exact ⟨h, scenarioRecord_built "web" 3 3, h _⟩

/-- C2 (code evaluated): two records built from runtime objects with equal replica counts
whose selector lists differ and whose label sets differ: `HasChanged` returns false. -/
theorem HasChanged_false_when_selectors_and_labels_differ :
    NewStatefulSetFromRuntime [] (scenarioObject "web" 3 3) minikube
      = some (scenarioRecord "web" 3 3) ∧
    NewStatefulSetFromRuntime [] (scenarioObject "db" 3 3) minikube
      = some (scenarioRecord "db" 3 3) ∧
    (scenarioRecord "web" 3 3).selectors ≠ (scenarioRecord "db" 3 3).selectors ∧
    (scenarioRecord "web" 3 3).Labels ≠ (scenarioRecord "db" 3 3).Labels ∧
    (scenarioRecord "web" 3 3).HasChanged (scenarioRecord "db" 3 3) = false := by
  refine ⟨scenarioRecord_built _ _ _, scenarioRecord_built _ _ _, ?_, ?_, ?_⟩ <;> decide

/-- C3: whenever the current replica counts of two records differ, `HasChanged` returns
true, whatever the replica counts, selectors and labels are. -/
theorem HasChanged_of_currentReplicas_ne (s old : StatefulSet)
    (h : s.currentReplicas ≠ old.currentReplicas) : s.HasChanged old = true := by
  simp [StatefulSet.HasChanged, h]

/-- C3 at the scenario: the record of `web` after the update to two current replicas,
against the record of the initial object with three. -/
theorem HasChanged_of_currentReplicas_ne_witness :
    NewStatefulSetFromRuntime [] (webObject 3) minikube = some (webRecord 3) ∧
    NewStatefulSetFromRuntime [] (webObject 2) minikube = some (webRecord 2) ∧
    (webRecord 2).currentReplicas ≠ (webRecord 3).currentReplicas ∧
    (webRecord 2).HasChanged (webRecord 3) = true :=
  ⟨scenarioRecord_built _ _ _, scenarioRecord_built _ _ _, by decide,
    HasChanged_of_currentReplicas_ne (webRecord 2) (webRecord 3) (by decide)⟩

/-- C6 as stated fails: for an object that requests three replicas in its spec while one
pod has been created, the record built by `FromRuntime` holds one as its replica count,
not the three requested in the spec. -/
theorem FromRuntime_replicas_not_spec :
    (scenarioObject "web" 1 1).Spec.Replicas = some 3 ∧
    ∃ r, StatefulSet.FromRuntime [] (scenarioObject "web" 1 1) minikube = some r ∧
      r.replicas = 1 ∧ some r.replicas ≠ (scenarioObject "web" 1 1).Spec.Replicas := by
  refine ⟨rfl, scenarioRecord "web" 1 1, scenarioRecord_built _ _ _, rfl, by decide⟩

/-- C6 amended: for an object with a present label selector, `FromRuntime` builds a record
whose current replica count is `Status.CurrentReplicas`, whose replica count is
`Status.Replicas` (the spec's requested count is not read), and whose selector list is
`JoinStringMap` of the selector's match-labels with the excluded labels and `"="`:
exactly the strings `key=value` of the match-labels whose key is not excluded. -/
theorem FromRuntime_fields (ExcludedLabels : StringMap) (obj : AppsV1StatefulSet)
    (config : CtorConfig) (selector : LabelSelector)
    (h : obj.Spec.Selector = some selector) :
    ∃ r, StatefulSet.FromRuntime ExcludedLabels obj config = some r ∧
      r.currentReplicas = obj.Status.CurrentReplicas ∧
      r.replicas = obj.Status.Replicas ∧
      r.selectors = JoinStringMap selector.MatchLabels ExcludedLabels "=" ∧
      ∀ x, x ∈ r.selectors ↔
        ∃ kv ∈ selector.MatchLabels, (∀ v, (kv.1, v) ∉ ExcludedLabels) ∧
          x = kv.1 ++ "=" ++ kv.2 := by
  refine ⟨{ toResourceMeta := FromObjectMeta obj.ObjectMeta config
            currentReplicas := obj.Status.CurrentReplicas
            replicas := obj.Status.Replicas
            selectors := JoinStringMap selector.MatchLabels ExcludedLabels "=" },
    by simp [StatefulSet.FromRuntime, h], rfl, rfl, rfl, ?_⟩
  intro x
  simp only [JoinStringMap, List.mem_map, List.mem_filter]
  constructor
  · rintro ⟨kv, ⟨hm, hex⟩, rfl⟩
    refine ⟨kv, hm, ?_, rfl⟩
    intro v hv
    have := List.lookup_eq_none_iff.mp (Option.isNone_iff_eq_none.mp hex)
    simpa using this (kv.1, v) hv
  · rintro ⟨kv, hm, hex, rfl⟩
    refine ⟨kv, ⟨hm, ?_⟩, rfl⟩
    rw [Option.isNone_iff_eq_none, List.lookup_eq_none_iff]
    intro p hp
    by_contra hk
    have hk2 : kv.1 = p.1 := by simpa using hk
    exact hex p.2 (by rw [hk2]; exact hp)

/-- C6 amended, at the scenario object with one pod created out of three requested. -/
theorem FromRuntime_fields_witness :
    (scenarioObject "web" 1 1).Spec.Selector = some { MatchLabels := [("app", "web")] } ∧
    ∃ r, StatefulSet.FromRuntime [] (scenarioObject "web" 1 1) minikube = some r ∧
      r.currentReplicas = (scenarioObject "web" 1 1).Status.CurrentReplicas ∧
      r.replicas = (scenarioObject "web" 1 1).Status.Replicas ∧
      r.selectors = JoinStringMap [("app", "web")] [] "=" ∧
      ∀ x, x ∈ r.selectors ↔
        ∃ kv ∈ [("app", "web")], (∀ v, (kv.1, v) ∉ ([] : StringMap)) ∧
          x = kv.1 ++ "=" ++ kv.2 :=
  ⟨rfl, FromRuntime_fields [] (scenarioObject "web" 1 1) minikube
    { MatchLabels := [("app", "web")] } rfl⟩

end K8sresources

/-! ## Post-processing of the fzf result -/

namespace Results

theorem fieldsAux_no_space (cs : List Char) :
    ∀ cur : List Char, (∀ c ∈ cur, isSpace c = false) →
      ∀ f ∈ fieldsAux cur cs, ∀ c ∈ f, isSpace c = false := by
  induction cs with
  | nil =>
    intro cur hcur f hf c hc
    by_cases h : cur = []
    · simp [fieldsAux, h] at hf
    · simp only [fieldsAux, h, if_false, List.mem_singleton] at hf
      subst hf
      exact hcur c (List.mem_reverse.mp hc)
  | cons x xs ih =>
    intro cur hcur f hf c hc
    by_cases hx : isSpace x = true
    · by_cases h : cur = []
      · simp only [fieldsAux, hx, h, if_true] at hf
        exact ih [] (by simp) f hf c hc
      · simp only [fieldsAux, hx, h, if_true, if_false, List.mem_cons] at hf
        rcases hf with hf | hf
        · subst hf
          exact hcur c (List.mem_reverse.mp hc)
        · exact ih [] (by simp) f hf c hc
    · simp only [fieldsAux, hx] at hf
      refine ih (x :: cur) ?_ f hf c hc
      intro d hd
      rcases List.mem_cons.mp hd with hd | hd
      · subst hd
        simpa using hx
      · exact hcur d hd

theorem Fields_no_space (s f : String) (hf : f ∈ Fields s) :
    ∀ c ∈ f.data, isSpace c = false := by
  simp only [Fields, List.mem_map] at hf
  obtain ⟨g, hg, rfl⟩ := hf
  exact fieldsAux_no_space s.data [] (by simp) g hg

theorem lastFlags_no_space : ∀ w ∈ lastFlags, ∀ c ∈ w.data, isSpace c = false := by
  decide

theorem Outcome_of_fields (P : ArgParser) (Parse : FlagSetParse) (cmdUse : String)
    (cmdArgs : List String) (fzfResult currentNamespace : String)
    (cluster ns v : String) (rest init : List String) (lastWord : String)
    (rt : ResourceType) (fc : FlagCompletion)
    (hf : Fields fzfResult = cluster :: ns :: v :: rest)
    (hp : P cmdUse cmdArgs = (rt, fc, none))
    (hrt : rt ≠ ResourceType.ResourceTypeApiResource)
    (hargs : cmdArgs = init ++ [lastWord])
    (hparse : fc ≠ FlagCompletion.FlagNamespace → (Parse cmdArgs).2 = none) :
    processResultWithNamespace P Parse cmdUse cmdArgs fzfResult currentNamespace =
      Outcome.ret
        ((if fc ≠ FlagCompletion.FlagNamespace ∧ (Parse cmdArgs).1 ≠ ns ∧
              ns ≠ currentNamespace then
            fun s => s ++ " -n " ++ ns
          else fun s => s)
          (if lastWord ∈ lastFlags then
            lastWord ++ (if rt = ResourceType.ResourceTypeNamespace then ns else v)
           else (if rt = ResourceType.ResourceTypeNamespace then ns else v)))
        none := by
  have hlast : cmdArgs[cmdArgs.length - 1]? = some lastWord := by
    subst hargs
    simp
  have hin : IsStringIn lastWord lastFlags = true ↔ lastWord ∈ lastFlags := by
    simp [IsStringIn, List.any_eq_true]
  unfold processResultWithNamespace
  simp only [hf, hp, hlast]
  by_cases hfc : fc = FlagCompletion.FlagNamespace
  · subst hfc
    by_cases hns : rt = ResourceType.ResourceTypeNamespace <;>
      by_cases hl : lastWord ∈ lastFlags <;>
      simp [hrt, hns, hl, hin]
  · have hpe := hparse hfc
    by_cases hns : rt = ResourceType.ResourceTypeNamespace <;>
      by_cases hl : lastWord ∈ lastFlags <;>
      by_cases h1 : (Parse cmdArgs).1 = ns <;>
      by_cases h2 : ns = currentNamespace <;>
      simp [hrt, hns, hl, hin, hfc, hpe, h1, h2, parseNamespaceFlag]


theorem Fields_of_three_le (fzfResult : String) (h : ¬ (Fields fzfResult).length < 3) :
    ∃ cluster ns v rest, Fields fzfResult = cluster :: ns :: v :: rest := by
  match hf : Fields fzfResult with
  | [] => simp [hf] at h
  | [_] => simp [hf] at h
  | [_, _] => simp [hf] at h
  | a :: b :: c :: rest => exact ⟨a, b, c, rest, rfl⟩

theorem panic_only_on_empty_args (P : ArgParser) (Parse : FlagSetParse) (cmdUse : String)
    (cmdArgs : List String) (fzfResult currentNamespace : String)
    (h : processResultWithNamespace P Parse cmdUse cmdArgs fzfResult currentNamespace
      = Outcome.panic) :
    cmdArgs = [] ∧ 3 ≤ (Fields fzfResult).length := by
  by_cases hlen : (Fields fzfResult).length < 3
  · simp [processResultWithNamespace, hlen] at h
  · refine ⟨?_, by omega⟩
    obtain ⟨cluster, ns, v, rest, hf⟩ := Fields_of_three_le fzfResult hlen
    by_contra hne
    obtain ⟨init, lastWord, hargs⟩ := (List.eq_nil_or_concat cmdArgs).resolve_left hne
    rw [List.concat_eq_append] at hargs
    have h0 := h
    simp only [processResultWithNamespace, hlen, if_false] at h
    rcases hp : P cmdUse cmdArgs with ⟨rt, fc, e⟩
    cases e with
    | some err => simp [hp] at h
    | none =>
      by_cases hrt : rt = ResourceType.ResourceTypeApiResource
      · simp [hf, hp, hrt] at h
      · by_cases hparse : fc ≠ FlagCompletion.FlagNamespace → (Parse cmdArgs).2 = none
        · rw [Outcome_of_fields P Parse cmdUse cmdArgs fzfResult currentNamespace cluster ns v
            rest init lastWord rt fc hf hp hrt hargs hparse] at h0
          exact Outcome.noConfusion h0
        · obtain ⟨hfc, hpe⟩ := Classical.not_imp.mp hparse
          obtain ⟨err, herr⟩ := Option.ne_none_iff_exists.mp hpe
          by_cases hns : rt = ResourceType.ResourceTypeNamespace <;>
            simp [hf, hp, hrt, hfc, hns, parseNamespaceFlag, ← herr] at h

theorem success_shape (P : ArgParser) (Parse : FlagSetParse) (cmdUse : String)
    (cmdArgs : List String) (fzfResult currentNamespace completion : String)
    (hrt : (P cmdUse cmdArgs).1 ≠ ResourceType.ResourceTypeApiResource)
    (hok : processResultWithNamespace P Parse cmdUse cmdArgs fzfResult currentNamespace
      = Outcome.ret completion none) :
    ∃ cluster ns v rest init lastWord,
      Fields fzfResult = cluster :: ns :: v :: rest ∧ cmdArgs = init ++ [lastWord] ∧
      P cmdUse cmdArgs = ((P cmdUse cmdArgs).1, (P cmdUse cmdArgs).2.1, none) ∧
      ((P cmdUse cmdArgs).2.1 ≠ FlagCompletion.FlagNamespace → (Parse cmdArgs).2 = none) := by
  by_cases hlen : (Fields fzfResult).length < 3
  · simp [processResultWithNamespace, hlen] at hok
  · obtain ⟨cluster, ns, v, rest, hf⟩ := Fields_of_three_le fzfResult hlen
    simp only [processResultWithNamespace, hlen, if_false] at hok
    rcases hp : P cmdUse cmdArgs with ⟨rt, fc, e⟩
    rw [hp] at hrt hok
    simp only at hrt
    cases e with
    | some err => simp at hok
    | none =>
      have hparse : fc ≠ FlagCompletion.FlagNamespace → (Parse cmdArgs).2 = none := by
        intro hfc
        by_contra hpe
        obtain ⟨err, herr⟩ := Option.ne_none_iff_exists.mp hpe
        by_cases hns : rt = ResourceType.ResourceTypeNamespace <;>
          simp [hf, hrt, hfc, hns, parseNamespaceFlag, ← herr] at hok
      have hne : cmdArgs ≠ [] := by
        intro hnil
        by_cases hfc : fc = FlagCompletion.FlagNamespace
        · by_cases hns : rt = ResourceType.ResourceTypeNamespace <;>
            simp [hf, hrt, hfc, hns, hnil] at hok
        · have hpe := hparse hfc
          rw [hnil] at hpe
          by_cases hns : rt = ResourceType.ResourceTypeNamespace <;>
            simp [hf, hrt, hfc, hns, hnil, parseNamespaceFlag, hpe] at hok
      obtain ⟨init, lastWord, hargs⟩ := (List.eq_nil_or_concat cmdArgs).resolve_left hne
      rw [List.concat_eq_append] at hargs
      exact ⟨cluster, ns, v, rest, init, lastWord, hf, hargs, rfl, hparse⟩

theorem not_endsWith_of_no_space (s ns : String) (hs : ∀ c ∈ s.data, isSpace c = false) :
    endsWith s (" -n " ++ ns) = false := by
  by_contra h
  have h2 : (" -n " ++ ns).data <:+ s.data := by
    simpa [endsWith] using h
  have hmem : ' ' ∈ s.data := h2.subset (by simp)
  have := hs ' ' hmem
  revert this
  decide

theorem endsWith_append (s t : String) : endsWith (s ++ t) t = true := by
  simp [endsWith]


/-- C7: when the fzf result splits into fewer than three fields, the call returns the
empty completion together with the error "fzf result should have at least 3 elements",
and that outcome is the same for every argument parser, flag parser, command, argument
list and current namespace: the arguments are not consulted. -/
theorem too_few_fields_error (P : ArgParser) (Parse : FlagSetParse) (cmdUse : String)
    (cmdArgs : List String) (fzfResult currentNamespace : String)
    (h : (Fields fzfResult).length < 3) :
    processResultWithNamespace P Parse cmdUse cmdArgs fzfResult currentNamespace =
      Outcome.ret ""
        (some ("fzf result should have at least 3 elements, got " ++
          fmtSlice (Fields fzfResult))) ∧
    ∀ (P2 : ArgParser) (Parse2 : FlagSetParse) (cmdUse2 : String) (cmdArgs2 : List String)
      (currentNamespace2 : String),
      processResultWithNamespace P2 Parse2 cmdUse2 cmdArgs2 fzfResult currentNamespace2 =
        processResultWithNamespace P Parse cmdUse cmdArgs fzfResult currentNamespace := by
  have key : ∀ (P : ArgParser) (Parse : FlagSetParse) (cmdUse : String)
      (cmdArgs : List String) (currentNamespace : String),
      processResultWithNamespace P Parse cmdUse cmdArgs fzfResult currentNamespace =
        Outcome.ret ""
          (some ("fzf result should have at least 3 elements, got " ++
            fmtSlice (Fields fzfResult))) := by
    intro P Parse cmdUse cmdArgs currentNamespace
    simp only [processResultWithNamespace, h, if_true]
  refine ⟨key _ _ _ _ _, ?_⟩
  intro P2 Parse2 cmdUse2 cmdArgs2 currentNamespace2
  rw [key, key]

/-- C7 on the empty fzf result, with an empty argument list. -/
theorem too_few_fields_error_witness :
    (Fields "").length < 3 ∧
    processResultWithNamespace (constParser (ResourceType.other 0) (FlagCompletion.other 0))
        noNamespaceFlag "get" [] "" "default" =
      Outcome.ret "" (some "fzf result should have at least 3 elements, got []") ∧
    processResultWithNamespace (constParser ResourceType.ResourceTypeApiResource
        FlagCompletion.FlagNamespace) noNamespaceFlag "logs" ["logs", "-n"] "" "kube-system" =
      processResultWithNamespace (constParser (ResourceType.other 0) (FlagCompletion.other 0))
        noNamespaceFlag "get" [] "" "default" :=
  have h := too_few_fields_error (constParser (ResourceType.other 0) (FlagCompletion.other 0))
    noNamespaceFlag "get" [] "" "default" (by decide)
  ⟨by decide, h.1, h.2 _ _ _ _ _⟩

/-- C8: for a successful call on a resource type other than api-resource, with `ns` the
second field of the fzf result, the completion ends with `" -n " ++ ns` if and only if
the completion is not for a namespace flag, `ns` differs from the value of the namespace
flag parsed from the arguments and `ns` differs from the current namespace; it is then the
result value (with the last word in front when that word is one of the listed flags)
followed by that suffix, and otherwise the result value alone. -/
theorem namespace_reinsertion (P : ArgParser) (Parse : FlagSetParse) (cmdUse : String)
    (cmdArgs : List String) (fzfResult currentNamespace completion : String)
    (hrt : (P cmdUse cmdArgs).1 ≠ ResourceType.ResourceTypeApiResource)
    (hok : processResultWithNamespace P Parse cmdUse cmdArgs fzfResult currentNamespace
      = Outcome.ret completion none) :
    ∃ cluster ns v rest init lastWord value shown,
      Fields fzfResult = cluster :: ns :: v :: rest ∧ cmdArgs = init ++ [lastWord] ∧
      value = (if (P cmdUse cmdArgs).1 = ResourceType.ResourceTypeNamespace then ns else v) ∧
      shown = (if lastWord ∈ lastFlags then lastWord ++ value else value) ∧
      (endsWith completion (" -n " ++ ns) = true ↔
        ((P cmdUse cmdArgs).2.1 ≠ FlagCompletion.FlagNamespace ∧ (Parse cmdArgs).1 ≠ ns ∧
          ns ≠ currentNamespace)) ∧
      (endsWith completion (" -n " ++ ns) = true → completion = shown ++ " -n " ++ ns) ∧
      (endsWith completion (" -n " ++ ns) = false → completion = shown) := by
  obtain ⟨cluster, ns, v, rest, init, lastWord, hf, hargs, hp, hparse⟩ :=
    success_shape P Parse cmdUse cmdArgs fzfResult currentNamespace completion hrt hok
  have hev := Outcome_of_fields P Parse cmdUse cmdArgs fzfResult currentNamespace cluster ns v
    rest init lastWord _ _ hf hp hrt hargs hparse
  rw [hok] at hev
  have hc := (Outcome.ret.inj hev).1
  refine ⟨cluster, ns, v, rest, init, lastWord, _, _, hf, hargs, rfl, rfl, ?_⟩
  have hvalue : ∀ c ∈ (if (P cmdUse cmdArgs).1 = ResourceType.ResourceTypeNamespace
      then ns else v).data, isSpace c = false := by
    split
    · exact Fields_no_space fzfResult ns (by simp [hf])
    · exact Fields_no_space fzfResult v (by simp [hf])
  have hshown : ∀ c ∈ (if lastWord ∈ lastFlags then
      lastWord ++ (if (P cmdUse cmdArgs).1 = ResourceType.ResourceTypeNamespace then ns else v)
      else (if (P cmdUse cmdArgs).1 = ResourceType.ResourceTypeNamespace then ns else v)).data,
      isSpace c = false := by
    split
    · rename_i hl
      intro c hcm
      rw [String.data_append, List.mem_append] at hcm
      rcases hcm with hcm | hcm
      · exact lastFlags_no_space lastWord hl c hcm
      · exact hvalue c hcm
    · exact hvalue
  by_cases hre : (P cmdUse cmdArgs).2.1 ≠ FlagCompletion.FlagNamespace ∧
      (Parse cmdArgs).1 ≠ ns ∧ ns ≠ currentNamespace
  · rw [if_pos hre] at hc
    have hends : endsWith completion (" -n " ++ ns) = true := by
      rw [hc, String.append_assoc]
      exact endsWith_append _ _
    exact ⟨⟨fun _ => hre, fun _ => hends⟩, fun _ => hc, fun hn => by simp [hends] at hn⟩
  · rw [if_neg hre] at hc
    have hends : endsWith completion (" -n " ++ ns) = false := by
      rw [hc]
      exact not_endsWith_of_no_space _ _ hshown
    exact ⟨⟨fun hn => by simp [hends] at hn, fun h => absurd h hre⟩,
      fun hn => by simp [hends] at hn, fun _ => hc⟩


/-- C8 on the completion of a pod name of another namespace: `kube-system` is neither
the current namespace nor given by a flag, and is put back after the pod name. -/
theorem namespace_reinsertion_witness :
    (constParser (ResourceType.other 0) (FlagCompletion.other 0) "get" ["get", "pods", ""]).1
      ≠ ResourceType.ResourceTypeApiResource ∧
    processResultWithNamespace (constParser (ResourceType.other 0) (FlagCompletion.other 0))
      noNamespaceFlag "get" ["get", "pods", ""] "minikube kube-system web-0" "default"
      = Outcome.ret "web-0 -n kube-system" none ∧
    ∃ cluster ns v rest init lastWord value shown,
      Fields "minikube kube-system web-0" = cluster :: ns :: v :: rest ∧
      ["get", "pods", ""] = init ++ [lastWord] ∧
      value = (if (constParser (ResourceType.other 0) (FlagCompletion.other 0) "get"
        ["get", "pods", ""]).1 = ResourceType.ResourceTypeNamespace then ns else v) ∧
      shown = (if lastWord ∈ lastFlags then lastWord ++ value else value) ∧
      (endsWith "web-0 -n kube-system" (" -n " ++ ns) = true ↔
        ((constParser (ResourceType.other 0) (FlagCompletion.other 0) "get"
          ["get", "pods", ""]).2.1 ≠ FlagCompletion.FlagNamespace ∧
          (noNamespaceFlag ["get", "pods", ""]).1 ≠ ns ∧ ns ≠ "default")) ∧
      (endsWith "web-0 -n kube-system" (" -n " ++ ns) = true →
        "web-0 -n kube-system" = shown ++ " -n " ++ ns) ∧
      (endsWith "web-0 -n kube-system" (" -n " ++ ns) = false →
        "web-0 -n kube-system" = shown) :=
  ⟨by decide, by decide,
    namespace_reinsertion (constParser (ResourceType.other 0) (FlagCompletion.other 0))
      noNamespaceFlag "get" ["get", "pods", ""] "minikube kube-system web-0" "default"
      "web-0 -n kube-system" (by decide) (by decide)⟩

/-- C9 as stated fails: with the resource type namespace and a completion that is not for
a namespace flag, the namespace `kube-system`, which is not the current one, is completed
as `kube-system -n kube-system`: the completion carries the suffix. -/
theorem namespace_completion_carries_suffix :
    processResultWithNamespace
      (constParser ResourceType.ResourceTypeNamespace (FlagCompletion.other 0))
      noNamespaceFlag "get" ["get", "namespace", ""] "minikube kube-system 32d" "default"
      = Outcome.ret "kube-system -n kube-system" none ∧
    endsWith "kube-system -n kube-system" " -n kube-system" = true := by
  decide

/-- C9 amended: for a successful call whose resource type is namespace, the completion is
built from the namespace name of field 1 and the last command word only (put in front when
it is one of the listed flags), never from the age field: it is that value alone when the
completion is for a namespace flag, or the name is the value of the parsed namespace flag,
or the name is the current namespace, and that value followed by `" -n " ++ name`
otherwise; any fzf result with the same first two fields gives the same completion. -/
theorem namespace_completion (P : ArgParser) (Parse : FlagSetParse) (cmdUse : String)
    (cmdArgs : List String) (fzfResult currentNamespace completion : String)
    (hrt : (P cmdUse cmdArgs).1 = ResourceType.ResourceTypeNamespace)
    (hok : processResultWithNamespace P Parse cmdUse cmdArgs fzfResult currentNamespace
      = Outcome.ret completion none) :
    ∃ cluster name age rest init lastWord shown,
      Fields fzfResult = cluster :: name :: age :: rest ∧ cmdArgs = init ++ [lastWord] ∧
      shown = (if lastWord ∈ lastFlags then lastWord ++ name else name) ∧
      (((P cmdUse cmdArgs).2.1 = FlagCompletion.FlagNamespace ∨ (Parse cmdArgs).1 = name ∨
          name = currentNamespace) → completion = shown) ∧
      (¬ ((P cmdUse cmdArgs).2.1 = FlagCompletion.FlagNamespace ∨ (Parse cmdArgs).1 = name ∨
          name = currentNamespace) → completion = shown ++ " -n " ++ name) ∧
      ∀ fzfResult2 age2 rest2, Fields fzfResult2 = cluster :: name :: age2 :: rest2 →
        processResultWithNamespace P Parse cmdUse cmdArgs fzfResult2 currentNamespace
          = Outcome.ret completion none := by
  have hrt2 : (P cmdUse cmdArgs).1 ≠ ResourceType.ResourceTypeApiResource := by
    rw [hrt]
    decide
  obtain ⟨cluster, ns, v, rest, init, lastWord, hf, hargs, hp, hparse⟩ :=
    success_shape P Parse cmdUse cmdArgs fzfResult currentNamespace completion hrt2 hok
  have hev := Outcome_of_fields P Parse cmdUse cmdArgs fzfResult currentNamespace cluster ns v
    rest init lastWord _ _ hf hp hrt2 hargs hparse
  rw [hok] at hev
  have hc := (Outcome.ret.inj hev).1
  simp only [hrt, if_true] at hc
  refine ⟨cluster, ns, v, rest, init, lastWord, _, hf, hargs, rfl, ?_, ?_, ?_⟩
  · intro h
    rw [hc, if_neg]
    rintro ⟨h1, h2, h3⟩
    rcases h with h | h | h
    · exact h1 h
    · exact h2 h
    · exact h3 h
  · intro h
    rw [hc, if_pos]
    exact ⟨fun h1 => h (Or.inl h1), fun h2 => h (Or.inr (Or.inl h2)),
      fun h3 => h (Or.inr (Or.inr h3))⟩
  · intro fzfResult2 age2 rest2 hf2
    have hev2 := Outcome_of_fields P Parse cmdUse cmdArgs fzfResult2 currentNamespace cluster
      ns age2 rest2 init lastWord _ _ hf2 hp hrt2 hargs hparse
    rw [hev2, hc]
    simp only [hrt, if_true]

/-- C9 amended, on the two cases: the completion of the value of the `-n` flag is the
flag followed by the name; the completion of a namespace argument gets the suffix. -/
theorem namespace_completion_witness :
    (constParser ResourceType.ResourceTypeNamespace FlagCompletion.FlagNamespace "get"
      ["get", "pods", "-n"]).1 = ResourceType.ResourceTypeNamespace ∧
    processResultWithNamespace
      (constParser ResourceType.ResourceTypeNamespace FlagCompletion.FlagNamespace)
      noNamespaceFlag "get" ["get", "pods", "-n"] "minikube kube-system 32d" "default"
      = Outcome.ret "-nkube-system" none ∧
    ∃ cluster name age rest init lastWord shown,
      Fields "minikube kube-system 32d" = cluster :: name :: age :: rest ∧
      ["get", "pods", "-n"] = init ++ [lastWord] ∧
      shown = (if lastWord ∈ lastFlags then lastWord ++ name else name) ∧
      (((constParser ResourceType.ResourceTypeNamespace FlagCompletion.FlagNamespace "get"
          ["get", "pods", "-n"]).2.1 = FlagCompletion.FlagNamespace ∨
          (noNamespaceFlag ["get", "pods", "-n"]).1 = name ∨ name = "default") →
        "-nkube-system" = shown) ∧
      (¬ ((constParser ResourceType.ResourceTypeNamespace FlagCompletion.FlagNamespace "get"
          ["get", "pods", "-n"]).2.1 = FlagCompletion.FlagNamespace ∨
          (noNamespaceFlag ["get", "pods", "-n"]).1 = name ∨ name = "default") →
        "-nkube-system" = shown ++ " -n " ++ name) ∧
      ∀ fzfResult2 age2 rest2, Fields fzfResult2 = cluster :: name :: age2 :: rest2 →
        processResultWithNamespace
          (constParser ResourceType.ResourceTypeNamespace FlagCompletion.FlagNamespace)
          noNamespaceFlag "get" ["get", "pods", "-n"] fzfResult2 "default"
          = Outcome.ret "-nkube-system" none :=
  ⟨by decide, by decide,
    namespace_completion
      (constParser ResourceType.ResourceTypeNamespace FlagCompletion.FlagNamespace)
      noNamespaceFlag "get" ["get", "pods", "-n"] "minikube kube-system 32d" "default"
      "-nkube-system" (by decide) (by decide)⟩

/-- C10: with a non-empty argument list the call never panics: it returns a completion
and an error value, whatever the argument parser and the flag parser answer; and for any
argument list, a panic can only be the access to the last word of an empty argument list
after the length check passed, so the accesses to the fields 0, 1 and 2 are in bounds. -/
theorem index_safety (P : ArgParser) (Parse : FlagSetParse) (cmdUse : String)
    (cmdArgs : List String) (fzfResult currentNamespace : String) (h : cmdArgs ≠ []) :
    (∃ completion err,
      processResultWithNamespace P Parse cmdUse cmdArgs fzfResult currentNamespace
        = Outcome.ret completion err) ∧
    ∀ args : List String,
      processResultWithNamespace P Parse cmdUse args fzfResult currentNamespace
        = Outcome.panic → args = [] ∧ 3 ≤ (Fields fzfResult).length := by
  refine ⟨?_, fun args hp =>
    panic_only_on_empty_args P Parse cmdUse args fzfResult currentNamespace hp⟩
  cases hout : processResultWithNamespace P Parse cmdUse cmdArgs fzfResult currentNamespace with
  | ret completion err => exact ⟨completion, err, rfl⟩
  | panic =>
    exact absurd
      (panic_only_on_empty_args P Parse cmdUse cmdArgs fzfResult currentNamespace hout).1 h

/-- C10 on a one-word argument list and a three-field fzf result; the same call on the
empty argument list is the panic that the hypothesis excludes. -/
theorem index_safety_witness :
    ["get"] ≠ ([] : List String) ∧
    ((∃ completion err,
      processResultWithNamespace (constParser (ResourceType.other 0) (FlagCompletion.other 0))
        noNamespaceFlag "get" ["get"] "minikube default web-0" "default"
        = Outcome.ret completion err) ∧
    ∀ args : List String,
      processResultWithNamespace (constParser (ResourceType.other 0) (FlagCompletion.other 0))
        noNamespaceFlag "get" args "minikube default web-0" "default"
        = Outcome.panic → args = [] ∧ 3 ≤ (Fields "minikube default web-0").length) ∧
    processResultWithNamespace (constParser (ResourceType.other 0) (FlagCompletion.other 0))
      noNamespaceFlag "get" [] "minikube default web-0" "default" = Outcome.panic :=
  ⟨by decide,
    index_safety (constParser (ResourceType.other 0) (FlagCompletion.other 0))
      noNamespaceFlag "get" ["get"] "minikube default web-0" "default" (by decide),
    by decide⟩

end Results

/-! ## The supervisor loop of the cache builder -/

namespace CacheBuilder

theorem start_snoc (first : Poll) (startOk : Bool) (events : List Event) (e : Event) :
    start first startOk (events ++ [e]) = step (start first startOk events) e := by
  simp [start, List.foldl_append]

theorem lastStarted_append (a b : List Action) :
    lastStarted (a ++ b) = (lastStarted b).or (lastStarted a) := by
  induction a with
  | nil => simp [lastStarted]
  | cons x xs ih =>
    cases x with
    | Start w => simp [lastStarted, ih, Option.or_assoc]
    | Stop w => simp [lastStarted, ih]

theorem activeSessions_append (a b : List Action) :
    activeSessions (a ++ b) = b.foldl applyAction (activeSessions a) := by
  simp [activeSessions, List.foldl_append]

/-- Extending a trace whose only active session is `w` by the stop of `w` and the start
of `w2` keeps the two properties of the trace, and leaves `w2` as the only active
session. -/
theorem trace_extend (tr : List Action) (w w2 : ResourceWatcher)
    (hact : activeSessions tr = [w.id]) (hlast : lastStarted tr = some w)
    (hidx : ∀ i x, tr[i + 1]? = some (Action.Start x) →
      ∃ w0, tr[i]? = some (Action.Stop w0) ∧ lastStarted (tr.take i) = some w0)
    (htake : ∀ n, (activeSessions (tr.take n)).length ≤ 1) :
    activeSessions (tr ++ [Action.Stop w, Action.Start w2]) = [w2.id] ∧
    lastStarted (tr ++ [Action.Stop w, Action.Start w2]) = some w2 ∧
    (∀ i x, (tr ++ [Action.Stop w, Action.Start w2])[i + 1]? = some (Action.Start x) →
      ∃ w0, (tr ++ [Action.Stop w, Action.Start w2])[i]? = some (Action.Stop w0) ∧
        lastStarted ((tr ++ [Action.Stop w, Action.Start w2]).take i) = some w0) ∧
    (∀ n, (activeSessions ((tr ++ [Action.Stop w, Action.Start w2]).take n)).length ≤ 1) := by
  refine ⟨?_, ?_, ?_, ?_⟩
  · simp [activeSessions_append, hact, applyAction]
  · simp [lastStarted_append, lastStarted]
  · intro i x hx
    rcases Nat.lt_trichotomy (i + 1) tr.length with hlt | heq | hgt
    · rw [List.getElem?_append_left hlt] at hx
      obtain ⟨w0, h1, h2⟩ := hidx i x hx
      refine ⟨w0, ?_, ?_⟩
      · rw [List.getElem?_append_left (by omega)]
        exact h1
      · rw [List.take_append_of_le_length (by omega)]
        exact h2
    · rw [List.getElem?_append_right (by omega)] at hx
      simp [heq] at hx
    · by_cases hi : i = tr.length
      · subst hi
        refine ⟨w, ?_, ?_⟩
        · rw [List.getElem?_append_right (le_refl _)]
          simp
        · rw [List.take_append_of_le_length (le_refl _), List.take_length]
          exact hlast
      · rw [List.getElem?_append_right (by omega)] at hx
        have h2 : 2 ≤ i + 1 - tr.length := by omega
        rw [List.getElem?_eq_none (by simpa using h2)] at hx
        exact absurd hx (by simp)
  · intro n
    rcases Nat.lt_trichotomy n (tr.length + 1) with hlt | heq | hgt
    · rw [List.take_append_of_le_length (by omega)]
      exact htake n
    · subst heq
      rw [List.take_append]
      simp [activeSessions_append, hact, applyAction]
    · rw [List.take_of_length_le (by simp; omega)]
      simp [activeSessions_append, hact, applyAction]

/-- The invariant of the loop: the trace has the two properties, its only active session
is the one started last, and while the process runs that session is `watcher` and the
tracked configuration is the one it was started on. -/
theorem start_invariant (first : Poll) (startOk : Bool) (events : List Event) :
    ∃ w, activeSessions (start first startOk events).trace = [w.id] ∧
      lastStarted (start first startOk events).trace = some w ∧
      (∀ i x, (start first startOk events).trace[i + 1]? = some (Action.Start x) →
        ∃ w0, (start first startOk events).trace[i]? = some (Action.Stop w0) ∧
          lastStarted ((start first startOk events).trace.take i) = some w0) ∧
      (∀ n, (activeSessions ((start first startOk events).trace.take n)).length ≤ 1) ∧
      ((start first startOk events).status = Status.running →
        (start first startOk events).watcher = w ∧
        (start first startOk events).currentRestConfig = w.config ∧
        (start first startOk events).currentCluster = w.cluster) := by
  induction events using List.reverseRecOn with
  | nil =>
    refine ⟨newWatcher 0 first, ?_⟩
    have htr : (start first startOk []).trace = [Action.Start (newWatcher 0 first)] := by
      cases startOk <;> rfl
    rw [htr]
    refine ⟨rfl, rfl, ?_, ?_, ?_⟩
    · intro i x hx
      simp at hx
    · intro n
      cases n with
      | zero => simp [activeSessions]
      | succ m => simp [activeSessions, applyAction]
    · intro hrun
      cases startOk with
      | true => exact ⟨rfl, rfl, rfl⟩
      | false => simp [start, init, startWatchOnCluster] at hrun
  | append_singleton es e ih =>
    rw [start_snoc]
    obtain ⟨w, hact, hlast, hidx, htake, hrun⟩ := ih
    generalize start first startOk es = s at hact hlast hidx htake hrun
    cases hst : s.status with
    | returned =>
      have hs : step s e = s := by simp [step, hst]
      rw [hs]
      exact ⟨w, hact, hlast, hidx, htake, fun h => absurd (hst ▸ h) (by decide)⟩
    | exited =>
      have hs : step s e = s := by simp [step, hst]
      rw [hs]
      exact ⟨w, hact, hlast, hidx, htake, fun h => absurd (hst ▸ h) (by decide)⟩
    | running =>
      obtain ⟨hw, hcfg, hcl⟩ := hrun hst
      cases e with
      | done =>
        have hs : step s Event.done = { s with status := Status.returned } := by
          simp [step, hst]
        rw [hs]
        exact ⟨w, hact, hlast, hidx, htake, fun h => by simp at h⟩
      | tick poll ok =>
        by_cases hhost : poll.restConfig.Host = s.currentRestConfig.Host
        · have hs : step s (Event.tick poll ok) = s := by simp [step, hst, hhost]
          rw [hs]
          exact ⟨w, hact, hlast, hidx, htake, fun _ => ⟨hw, hcfg, hcl⟩⟩
        · have htr : (step s (Event.tick poll ok)).trace =
              s.trace ++ [Action.Stop w, Action.Start (newWatcher s.sessions poll)] := by
            cases ok <;> simp [step, hst, hhost, startWatchOnCluster, hw]
          obtain ⟨h1, h2, h3, h4⟩ :=
            trace_extend s.trace w (newWatcher s.sessions poll) hact hlast hidx htake
          refine ⟨newWatcher s.sessions poll, ?_⟩
          rw [htr]
          refine ⟨h1, h2, h3, h4, ?_⟩
          cases ok with
          | true =>
            intro _
            simp [step, hst, hhost, startWatchOnCluster, newWatcher]
          | false =>
            intro hrun2
            simp [step, hst, hhost, startWatchOnCluster] at hrun2


theorem trace_head (first : Poll) (startOk : Bool) (events : List Event) :
    ∃ rest, (start first startOk events).trace = Action.Start (newWatcher 0 first) :: rest := by
  induction events using List.reverseRecOn with
  | nil => cases startOk <;> exact ⟨[], rfl⟩
  | append_singleton es e ih =>
    rw [start_snoc]
    obtain ⟨rest, hrest⟩ := ih
    generalize start first startOk es = s at hrest
    cases hst : s.status with
    | returned => exact ⟨rest, by simp [step, hst, hrest]⟩
    | exited => exact ⟨rest, by simp [step, hst, hrest]⟩
    | running =>
      cases e with
      | done => exact ⟨rest, by simp [step, hst, hrest]⟩
      | tick poll ok =>
        by_cases hhost : poll.restConfig.Host = s.currentRestConfig.Host
        · exact ⟨rest, by simp [step, hst, hhost, hrest]⟩
        · refine ⟨rest ++ [Action.Stop s.watcher, Action.Start (newWatcher s.sessions poll)], ?_⟩
          cases ok <;> simp [step, hst, hhost, startWatchOnCluster, hrest]

/-- C4: in the trace of session actions of `start`, over any sequence of events of the
loop, the first action is the start of the initial session, every later start of a
session comes right after the `Stop()` of the session started last before it, and after
any number of actions at most one session is started and not yet stopped. -/
theorem at_most_one_active_session (first : Poll) (startOk : Bool) (events : List Event) :
    (start first startOk events).trace[0]? = some (Action.Start (newWatcher 0 first)) ∧
    (∀ i x, (start first startOk events).trace[i + 1]? = some (Action.Start x) →
      ∃ w0, (start first startOk events).trace[i]? = some (Action.Stop w0) ∧
        lastStarted ((start first startOk events).trace.take i) = some w0) ∧
    (∀ n, (activeSessions ((start first startOk events).trace.take n)).length ≤ 1) := by
  obtain ⟨rest, hrest⟩ := trace_head first startOk events
  obtain ⟨w, _, _, hidx, htake, _⟩ := start_invariant first startOk events
  exact ⟨by simp [hrest], hidx, htake⟩

/-- C5: at any point where the loop runs, the tracked rest config has the host the active
session (the `watcher`, started last and the only active one) was started with; a tick
appends the stop of that session and the start of a new one to the trace if and only if
the polled host differs from that host, and appends nothing if and only if the polled host
equals it; after the tick, if the process still runs, the tracked host and the host of the
active session both are the polled host. -/
theorem swap_iff_identity_differs (first : Poll) (startOk : Bool) (events : List Event)
    (poll : Poll) (ok : Bool)
    (hrun : (start first startOk events).status = Status.running) :
    (start first startOk events).currentRestConfig.Host
      = (start first startOk events).watcher.config.Host ∧
    lastStarted (start first startOk events).trace
      = some (start first startOk events).watcher ∧
    activeSessions (start first startOk events).trace
      = [(start first startOk events).watcher.id] ∧
    ((step (start first startOk events) (Event.tick poll ok)).trace
        = (start first startOk events).trace ++
          [Action.Stop (start first startOk events).watcher,
           Action.Start (newWatcher (start first startOk events).sessions poll)]
      ↔ poll.restConfig.Host ≠ (start first startOk events).watcher.config.Host) ∧
    ((step (start first startOk events) (Event.tick poll ok)).trace
        = (start first startOk events).trace
      ↔ poll.restConfig.Host = (start first startOk events).watcher.config.Host) ∧
    ((step (start first startOk events) (Event.tick poll ok)).status = Status.running →
      (step (start first startOk events) (Event.tick poll ok)).currentRestConfig.Host
        = poll.restConfig.Host ∧
      (step (start first startOk events) (Event.tick poll ok)).watcher.config.Host
        = poll.restConfig.Host) := by
  obtain ⟨w, hact, hlast, _, _, hinv⟩ := start_invariant first startOk events
  obtain ⟨hw, hcfg, _⟩ := hinv hrun
  generalize start first startOk events = s at hrun hact hlast hw hcfg
  subst hw
  have hh : s.currentRestConfig.Host = s.watcher.config.Host := by rw [hcfg]
  refine ⟨hh, hlast, hact, ?_⟩
  by_cases hhost : poll.restConfig.Host = s.currentRestConfig.Host
  · have hs : step s (Event.tick poll ok) = s := by simp [step, hrun, hhost]
    rw [hs]
    refine ⟨⟨fun h => ?_, fun h => absurd (hhost.trans hh) h⟩,
      ⟨fun _ => hhost.trans hh, fun _ => rfl⟩, fun _ => ⟨hhost.symm, (hhost.trans hh).symm⟩⟩
    have := congrArg List.length h
    simp at this
  · have htr : (step s (Event.tick poll ok)).trace =
        s.trace ++ [Action.Stop s.watcher, Action.Start (newWatcher s.sessions poll)] := by
      cases ok <;> simp [step, hrun, hhost, startWatchOnCluster]
    have hne : poll.restConfig.Host ≠ s.watcher.config.Host := fun h => hhost (h.trans hh.symm)
    refine ⟨⟨fun _ => hne, fun _ => htr⟩, ⟨fun h => ?_, fun h => absurd h hne⟩, ?_⟩
    · rw [htr] at h
      have := congrArg List.length h
      simp at this
    · cases ok with
      | true =>
        intro _
        simp [step, hrun, hhost, startWatchOnCluster]
      | false =>
        intro hrun2
        simp [step, hrun, hhost, startWatchOnCluster] at hrun2

/-- C5 on a run that started on host `a`, polled `a` again, and now polls host `b`. -/
theorem swap_iff_identity_differs_witness :
    (start (pollOf "a" "A") true [Event.tick (pollOf "a" "A") true]).status = Status.running ∧
    (step (start (pollOf "a" "A") true [Event.tick (pollOf "a" "A") true])
      (Event.tick (pollOf "b" "B") true)).trace
      = [Action.Start (newWatcher 0 (pollOf "a" "A")),
         Action.Stop (newWatcher 0 (pollOf "a" "A")),
         Action.Start (newWatcher 1 (pollOf "b" "B"))] ∧
    (step (start (pollOf "a" "A") true [Event.tick (pollOf "a" "A") true])
      (Event.tick (pollOf "b" "B") true)).currentRestConfig.Host = "b" :=
  have h := swap_iff_identity_differs (pollOf "a" "A") true [Event.tick (pollOf "a" "A") true]
    (pollOf "b" "B") true (by decide)
  ⟨by decide, (h.2.2.2.1.mpr (by decide)).trans (by decide), (h.2.2.2.2.2 (by decide)).1⟩

end CacheBuilder
